import Mathlib

/-!
Verification of the `gpu_temp_hwmon` kernel module
(`src/gpu_temp_hwmon/gpu_temp_hwmon.c`) against its specification.

The module exposes three read-only hwmon sysfs attributes:
`temp1_input` (read from the text file `/tmp/gpu_max_temp`),
`temp1_max` (the literal string `"90000\n"`) and
`temp1_crit` (the literal string `"95000\n"`).

The shallow embedding below models the state of the external source file
explicitly and each sysfs show callback as a pure function from that state
to the bytes written into the sysfs buffer, together with the sequence of
file operations it performs.  Machine `int` is modelled as `Int` with an
explicit range check at the 32-bit bounds, exactly where the kernel
`kstrtoint` helper performs it.
-/

namespace GpuTempHwmon

/-! ### Decimal formatting (model of the kernel `sprintf` `%d` conversion) -/

/-- The character for the decimal digit `m` (meaningful for `m < 10`). -/
def digitChar (m : Nat) : Char := Char.ofNat (48 + m)

/-- The NUL byte used as C-string terminator. -/
def nulChar : Char := Char.ofNat 0

/-- Decimal digit string of a natural number, most significant digit first:
the output of the `%u` part of the `%d` conversion in `sprintf`. -/
def natDecimal (n : Nat) : List Char :=
  if h : n < 10 then [digitChar n]
  else natDecimal (n / 10) ++ [digitChar (n % 10)]
termination_by n
decreasing_by exact Nat.div_lt_self (by omega) (by omega)

/-- Decimal text of a signed integer: the output of `sprintf` with `%d`. -/
def intDecimal (v : Int) : List Char :=
  if v < 0 then '-' :: natDecimal v.natAbs else natDecimal v.natAbs

/-! ### Decimal parsing (model of the kernel `kstrtoint(s, 10, &res)`) -/

/-- Numeric value of a digit character. -/
def digitVal (c : Char) : Nat := c.toNat - 48

/-- Value of a digit string read most significant digit first (the
accumulator loop of the kernel `_parse_integer`). -/
def digitsToNat (ds : List Char) : Nat :=
  ds.foldl (fun a c => a * 10 + digitVal c) 0

/-- `INT_MIN` of the 32-bit C `int`. -/
def INT_MIN : Int := -(2 ^ 31)

/-- `INT_MAX` of the 32-bit C `int`. -/
def INT_MAX : Int := 2 ^ 31 - 1

/-- The optional leading sign accepted by `kstrtoint`: a leading `+` is
skipped, a leading `-` is skipped and remembered. -/
def stripSign (cs : List Char) : Int × List Char :=
  match cs with
  | [] => (1, [])
  | c :: t => if c = '+' then (1, t) else if c = '-' then ((-1 : Int), t) else (1, c :: t)

/-- Model of the kernel API `kstrtoint(s, 10, &res)` on the C string `cs`:
an optional sign, then one or more decimal digits, then optionally a single
trailing newline before the terminator; the value must fit in a 32-bit
signed `int`.  `none` stands for a negative error return
(`-EINVAL` or `-ERANGE`), which the caller only tests with `ret < 0`. -/
def kstrtoint (cs : List Char) : Option Int :=
  let sb := stripSign cs
  let ds := sb.2.takeWhile Char.isDigit
  let rest := sb.2.dropWhile Char.isDigit
  if ds = [] then none
  else if rest = [] ∨ rest = ['\n'] then
    let v : Int := sb.1 * (digitsToNat ds : Int)
    if INT_MIN ≤ v ∧ v ≤ INT_MAX then some v else none
  else none

/-! ### The external source file and the file operations of a query -/

/-- The hardcoded path of the external source (`#define TEMP_FILE`). -/
def TEMP_FILE : String := "/tmp/gpu_max_temp"

/-- State of the external source file as a query observes it:
missing (`filp_open` fails), present but failing to read
(`kernel_read` returns a negative error), or present with byte content
(`kernel_read` returns `min (length, 15)` bytes of a regular file). -/
inductive FileState where
  | absent : FileState
  | unreadable : FileState
  | present (content : List Char) : FileState
deriving DecidableEq, Repr

/-- Access mode of `filp_open`. -/
inductive AccessMode where
  | rdonly : AccessMode
  | wronly : AccessMode
  | rdwr : AccessMode
deriving DecidableEq, Repr

/-- File operations a callback may perform against the external source. -/
inductive FsOp where
  | openFile (path : String) (mode : AccessMode) : FsOp
  | readFile (maxBytes : Nat) : FsOp
  | closeFile : FsOp
  | createFile : FsOp
  | writeFile (newContent : List Char) : FsOp
  | deleteFile : FsOp
deriving DecidableEq, Repr

/-- Effect of one file operation on the file state.  The three operations
the module uses leave the state unchanged; the mutating ones are listed so
that not performing them is a meaningful statement. -/
def applyFsOp (fs : FileState) (op : FsOp) : FileState :=
  match op with
  | FsOp.openFile _ _ => fs
  | FsOp.readFile _ => fs
  | FsOp.closeFile => fs
  | FsOp.createFile => match fs with
      | FileState.absent => FileState.present []
      | s => s
  | FsOp.writeFile c => FileState.present c
  | FsOp.deleteFile => FileState.absent

/-- Whether an operation can change the file. -/
def isMutatingOp : FsOp → Bool
  | FsOp.openFile _ _ => false
  | FsOp.readFile _ => false
  | FsOp.closeFile => false
  | FsOp.createFile => true
  | FsOp.writeFile _ => true
  | FsOp.deleteFile => true

/-! ### The three sysfs show callbacks -/

/-- Opaque model of the `struct device *dev` argument (unused by the code). -/
structure Device where
  id : Nat
deriving DecidableEq, Repr

/-- Opaque model of the `struct device_attribute *attr` argument (unused). -/
structure DeviceAttribute where
  id : Nat
deriving DecidableEq, Repr

/-- The value `temp_millidegrees` computed by `temp1_input_show` from the
`ret` bytes delivered by `kernel_read` (here `bytes`, already truncated to
at most 15 = `sizeof(temp_str) - 1` bytes): it starts at `0`; when
`ret > 0` the buffer is NUL-terminated at `ret` — so the C string ends at
`ret` or at an earlier embedded NUL byte — and handed to `kstrtoint`, whose
failure leaves the value `0`. -/
def parsedTemp (bytes : List Char) : Int :=
  if bytes.length > 0 then
    match kstrtoint (bytes.takeWhile (fun c => c ≠ nulChar)) with
    | some v => v
    | none => 0
  else 0

/-- The trace of the successful-open path: `filp_open` read-only,
`kernel_read` of at most `sizeof(temp_str) - 1 = 15` bytes, `filp_close`. -/
def fullTrace : List FsOp :=
  [FsOp.openFile TEMP_FILE AccessMode.rdonly, FsOp.readFile 15, FsOp.closeFile]

/-- `temp1_input_show`, with its file operations made explicit: the pair of
the operations performed on the external source and the bytes written into
the sysfs buffer.  Mirrors the C control flow: `filp_open` failing returns
`sprintf(buf, "0\n")` at once; otherwise `kernel_read` delivers at most 15
bytes, a failed or empty read leaves `temp_millidegrees = 0`, parsing is
`parsedTemp`, and `filp_close` runs before the final
`sprintf(buf, "%d\n", temp_millidegrees)`. -/
def temp1_input_run (fs : FileState) : List FsOp × List Char :=
  match fs with
  | FileState.absent =>
      ([FsOp.openFile TEMP_FILE AccessMode.rdonly], "0\n".toList)
  | FileState.unreadable =>
      (fullTrace, intDecimal 0 ++ ['\n'])
  | FileState.present content =>
      (fullTrace, intDecimal (parsedTemp (content.take 15)) ++ ['\n'])

/-- The sysfs callback `temp1_input_show(dev, attr, buf)`: the bytes it
writes into `buf`.  Its return value in C is the byte count from `sprintf`,
never an error code.  `dev` and `attr` are unused, as in the C body. -/
def temp1_input_show (dev : Device) (attr : DeviceAttribute) (fs : FileState) :
    List Char :=
  (temp1_input_run fs).2

/-- The sysfs callback `temp1_max_show`: `sprintf(buf, "90000\n")`. -/
def temp1_max_show (dev : Device) (attr : DeviceAttribute) : List Char :=
  "90000\n".toList

/-- The sysfs callback `temp1_crit_show`: `sprintf(buf, "95000\n")`. -/
def temp1_crit_show (dev : Device) (attr : DeviceAttribute) : List Char :=
  "95000\n".toList

/-! ### Module lifecycle: `gpu_temp_init` / `gpu_temp_exit` -/

/-- Registration state of the module: the globals set by
`platform_driver_register` and `platform_device_register_simple`. -/
structure ProviderState where
  driverRegistered : Bool
  deviceRegistered : Bool
deriving DecidableEq, Repr

/-- The state before `module_init` runs: nothing registered. -/
def cleanState : ProviderState := ⟨false, false⟩

/-- The state after a successful `gpu_temp_init`: driver and device
registered (the hwmon device is managed by the device via `devm`). -/
def fullState : ProviderState := ⟨true, true⟩

/-- Outcomes the host kernel gives the two registration calls in
`gpu_temp_init`: `platform_driver_register` returns `0` or a negative
errno; `platform_device_register_simple` returns a valid `pdev` or an
error pointer whose `PTR_ERR` is the carried code. -/
structure InitEnv where
  driverReg : Int
  deviceReg : Except Int Unit
deriving Repr

/-- `gpu_temp_init`: register the platform driver (propagating a non-zero
`ret` at once), then register the platform device; if the device fails
(`IS_ERR(pdev)`), unregister the driver and propagate `PTR_ERR(pdev)`.
Returns the C return value and the registration state left behind. -/
def gpu_temp_init (env : InitEnv) (s : ProviderState) : Int × ProviderState :=
  let ret := env.driverReg
  if ret ≠ 0 then (ret, s)
  else
    let s1 : ProviderState := { s with driverRegistered := true }
    match env.deviceReg with
    | Except.error e => (e, { s1 with driverRegistered := false })
    | Except.ok _ => (0, { s1 with deviceRegistered := true })

/-- `gpu_temp_exit`: `platform_device_unregister(pdev)` then
`platform_driver_unregister(&gpu_temp_driver)`. -/
def gpu_temp_exit (s : ProviderState) : ProviderState :=
  let s1 : ProviderState := { s with deviceRegistered := false }
  { s1 with driverRegistered := false }

/-- Number of active registration handles the provider holds in a state
(the composite driver-plus-device registration of the spec data model). -/
def handleCount (s : ProviderState) : Nat :=
  if s.driverRegistered && s.deviceRegistered then 1 else 0

/-- The lifecycle step relation of the module: `module_init` invokes
`gpu_temp_init` once from the unregistered state at load (with whatever
outcomes `env` the host gives the registration calls), and `module_exit`
invokes `gpu_temp_exit` once at unload — the kernel only unloads a module
whose init succeeded, i.e. from the fully registered state. -/
inductive ModuleStep : ProviderState → ProviderState → Prop where
  | load (env : InitEnv) : ModuleStep cleanState (gpu_temp_init env cleanState).2
  | unload : ModuleStep fullState (gpu_temp_exit fullState)

/-- States reachable from the initial unregistered state under the
lifecycle step relation. -/
inductive ReachableState : ProviderState → Prop where
  | init : ReachableState cleanState
  | step {s t : ProviderState} : ReachableState s → ModuleStep s t → ReachableState t

/-! ### Helper lemmas about characters -/

theorem toNat_bounds_of_isDigit {c : Char} (h : c.isDigit = true) :
    48 ≤ c.toNat ∧ c.toNat ≤ 57 := by
  simp [Char.isDigit] at h
  exact h

theorem digitVal_le_of_isDigit {c : Char} (h : c.isDigit = true) :
    digitVal c ≤ 9 := by
  have := toNat_bounds_of_isDigit h
  unfold digitVal
  omega

theorem isDigit_ne_plus {c : Char} (h : c.isDigit = true) : c ≠ '+' := by
  intro he; subst he; exact absurd h (by decide)

theorem isDigit_ne_minus {c : Char} (h : c.isDigit = true) : c ≠ '-' := by
  intro he; subst he; exact absurd h (by decide)

theorem isDigit_ne_nul {c : Char} (h : c.isDigit = true) : c ≠ nulChar := by
  intro he; subst he; exact absurd h (by decide)

theorem digitChar_isDigit {m : Nat} (h : m < 10) : (digitChar m).isDigit = true := by
  interval_cases m <;> decide

theorem digitVal_digitChar {m : Nat} (h : m < 10) : digitVal (digitChar m) = m := by
  interval_cases m <;> decide

/-! ### Helper lemmas about `takeWhile` and `all` -/

theorem takeWhile_of_all {α : Type} (p : α → Bool) :
    ∀ l : List α, l.all p = true → l.takeWhile p = l
  | [], _ => rfl
  | a :: l, h => by
      simp only [List.all_cons, Bool.and_eq_true] at h
      simp [List.takeWhile_cons, h.1, takeWhile_of_all p l h.2]

theorem dropWhile_of_all {α : Type} (p : α → Bool) :
    ∀ l : List α, l.all p = true → l.dropWhile p = []
  | [], _ => rfl
  | a :: l, h => by
      simp only [List.all_cons, Bool.and_eq_true] at h
      simp [List.dropWhile_cons, h.1, dropWhile_of_all p l h.2]

theorem all_take {α : Type} (p : α → Bool) (n : Nat) (l : List α)
    (h : l.all p = true) : (l.take n).all p = true :=
  List.all_eq_true.mpr fun x hx =>
    List.all_eq_true.mp h x (List.take_subset n l hx)

theorem all_drop {α : Type} (p : α → Bool) (n : Nat) (l : List α)
    (h : l.all p = true) : (l.drop n).all p = true :=
  List.all_eq_true.mpr fun x hx =>
    List.all_eq_true.mp h x (List.drop_subset n l hx)

/-! ### Helper lemmas about `digitsToNat` -/

theorem foldl_digits_shift :
    ∀ (ys : List Char) (a : Nat),
      ys.foldl (fun b c => b * 10 + digitVal c) a
        = a * 10 ^ ys.length + ys.foldl (fun b c => b * 10 + digitVal c) 0
  | [], a => by simp
  | y :: t, a => by
      simp only [List.foldl_cons, List.length_cons]
      rw [foldl_digits_shift t (a * 10 + digitVal y),
          foldl_digits_shift t (0 * 10 + digitVal y)]
      ring

theorem digitsToNat_cons (c : Char) (t : List Char) :
    digitsToNat (c :: t) = digitVal c * 10 ^ t.length + digitsToNat t := by
  unfold digitsToNat
  simp only [List.foldl_cons]
  rw [foldl_digits_shift]
  simp

theorem digitsToNat_append (xs ys : List Char) :
    digitsToNat (xs ++ ys) = digitsToNat xs * 10 ^ ys.length + digitsToNat ys := by
  unfold digitsToNat
  rw [List.foldl_append, foldl_digits_shift]

theorem digitsToNat_concat (xs : List Char) (c : Char) :
    digitsToNat (xs ++ [c]) = digitsToNat xs * 10 + digitVal c := by
  rw [digitsToNat_append]
  simp [digitsToNat]

theorem digitsToNat_lt {ds : List Char} (h : ds.all Char.isDigit = true) :
    digitsToNat ds < 10 ^ ds.length := by
  induction ds with
  | nil => simp [digitsToNat]
  | cons c t ih =>
      simp only [List.all_cons, Bool.and_eq_true] at h
      rw [digitsToNat_cons]
      have hc : digitVal c ≤ 9 := digitVal_le_of_isDigit h.1
      have ht := ih h.2
      have hmul : digitVal c * 10 ^ t.length ≤ 9 * 10 ^ t.length :=
        Nat.mul_le_mul_right _ hc
      have hpow : 10 ^ (c :: t).length = 10 * 10 ^ t.length := by
        simp [List.length_cons, pow_succ]
        ring
      omega

/-! ### Helper lemmas about `natDecimal` and `intDecimal` -/

theorem natDecimal_ne_nil (n : Nat) : natDecimal n ≠ [] := by
  rw [natDecimal]
  split
  · simp
  · simp

theorem natDecimal_length_pos (n : Nat) : 0 < (natDecimal n).length :=
  List.length_pos.mpr (natDecimal_ne_nil n)

theorem natDecimal_all_digits (n : Nat) : (natDecimal n).all Char.isDigit = true := by
  induction n using Nat.strong_induction_on with
  | _ n ih =>
    rw [natDecimal]
    split
    next h => simp [digitChar_isDigit h]
    next h =>
      rw [List.all_append]
      have h1 := ih (n / 10) (Nat.div_lt_self (by omega) (by omega))
      have h2 : (digitChar (n % 10)).isDigit = true :=
        digitChar_isDigit (Nat.mod_lt n (by omega))
      simp [h1, h2]

theorem digitsToNat_natDecimal (n : Nat) : digitsToNat (natDecimal n) = n := by
  induction n using Nat.strong_induction_on with
  | _ n ih =>
    rw [natDecimal]
    split
    next h => simp [digitsToNat, digitVal_digitChar h]
    next h =>
      rw [digitsToNat_concat, ih (n / 10) (Nat.div_lt_self (by omega) (by omega)),
          digitVal_digitChar (Nat.mod_lt n (by omega))]
      omega

theorem natDecimal_length_le :
    ∀ n k : Nat, 1 ≤ k → n < 10 ^ k → (natDecimal n).length ≤ k := by
  intro n
  induction n using Nat.strong_induction_on with
  | _ n ih =>
    intro k hk hn
    rw [natDecimal]
    split
    next h => simpa using hk
    next h =>
      have hk2 : 2 ≤ k := by
        by_contra hc
        push_neg at hc
        interval_cases k
        norm_num at hn
        omega
      have hpow : 10 ^ k = 10 ^ (k - 1) * 10 := by
        rw [← pow_succ]
        congr 1
        omega
      have hdiv : n / 10 < 10 ^ (k - 1) := by
        rw [Nat.div_lt_iff_lt_mul (by omega)]
        omega
      have hrec := ih (n / 10) (Nat.div_lt_self (by omega) (by omega)) (k - 1)
        (by omega) hdiv
      simp only [List.length_append, List.length_cons, List.length_nil]
      omega

theorem natDecimal_lower :
    ∀ n : Nat, 1 ≤ n → 10 ^ ((natDecimal n).length - 1) ≤ n := by
  intro n
  induction n using Nat.strong_induction_on with
  | _ n ih =>
    intro hn
    rw [natDecimal]
    split
    next h => simpa using hn
    next h =>
      have h10 : 1 ≤ n / 10 := by omega
      have hlow := ih (n / 10) (Nat.div_lt_self (by omega) (by omega)) h10
      have hpos := natDecimal_length_pos (n / 10)
      simp only [List.length_append, List.length_cons, List.length_nil]
      have e : (natDecimal (n / 10)).length + 1 - 1
          = ((natDecimal (n / 10)).length - 1) + 1 := by omega
      rw [e, pow_succ]
      have hmul : 10 ^ ((natDecimal (n / 10)).length - 1) * 10 ≤ (n / 10) * 10 :=
        Nat.mul_le_mul_right _ hlow
      have hdm : n / 10 * 10 ≤ n := Nat.div_mul_le_self n 10
      omega

theorem intDecimal_of_nonneg {v : Int} (h : 0 ≤ v) :
    intDecimal v = natDecimal v.natAbs := by
  unfold intDecimal
  rw [if_neg (by omega)]

theorem intDecimal_of_neg {v : Int} (h : v < 0) :
    intDecimal v = '-' :: natDecimal v.natAbs := by
  unfold intDecimal
  rw [if_pos h]

theorem natAbs_le_of_range {v : Int} (h1 : INT_MIN ≤ v) (h2 : v ≤ INT_MAX) :
    v.natAbs ≤ 2 ^ 31 := by
  unfold INT_MIN at h1
  unfold INT_MAX at h2
  omega

theorem intDecimal_length_le {v : Int} (h1 : INT_MIN ≤ v) (h2 : v ≤ INT_MAX) :
    (intDecimal v).length ≤ 11 := by
  have hab : v.natAbs ≤ 2 ^ 31 := natAbs_le_of_range h1 h2
  have hlt : v.natAbs < 10 ^ 10 := by
    have : (2 : Nat) ^ 31 < 10 ^ 10 := by norm_num
    omega
  have hlen : (natDecimal v.natAbs).length ≤ 10 :=
    natDecimal_length_le v.natAbs 10 (by norm_num) hlt
  unfold intDecimal
  split
  · simp only [List.length_cons]
    omega
  · omega

theorem stripSign_of_digit {c : Char} (hcd : c.isDigit = true) (t : List Char) :
    stripSign (c :: t) = (1, c :: t) := by
  simp only [stripSign]
  rw [if_neg (isDigit_ne_plus hcd), if_neg (isDigit_ne_minus hcd)]

theorem stripSign_of_all_digits {ds : List Char}
    (hall : ds.all Char.isDigit = true) (hne : ds ≠ []) :
    stripSign ds = (1, ds) := by
  cases ds with
  | nil => exact absurd rfl hne
  | cons c t =>
      have hcd : c.isDigit = true := by
        rw [List.all_cons, Bool.and_eq_true] at hall
        exact hall.1
      exact stripSign_of_digit hcd t

/-- What `kstrtoint` computes once its sign and digit parts are known and
the digits run to the end of the string. -/
theorem kstrtoint_eq_of (cs ds : List Char) (sign : Int)
    (hstrip : stripSign cs = (sign, ds))
    (hall : ds.all Char.isDigit = true) (hne : ds ≠ []) :
    kstrtoint cs
      = if INT_MIN ≤ sign * (digitsToNat ds : Int) ∧
            sign * (digitsToNat ds : Int) ≤ INT_MAX
        then some (sign * (digitsToNat ds : Int)) else none := by
  have htake := takeWhile_of_all Char.isDigit ds hall
  have hdrop := dropWhile_of_all Char.isDigit ds hall
  simp only [kstrtoint, hstrip, htake, hdrop]
  rw [if_neg hne]
  simp

theorem take_all_of_length_le {α : Type} :
    ∀ (l : List α) (n : Nat), l.length ≤ n → l.take n = l
  | [], _, _ => by simp
  | a :: l, n, h => by
      cases n with
      | zero => simp at h
      | succ m =>
          rw [List.take_succ_cons, take_all_of_length_le l m (by simpa using h)]

theorem mem_intDecimal {x : Char} {v : Int} (hx : x ∈ intDecimal v) :
    x = '-' ∨ x.isDigit = true := by
  unfold intDecimal at hx
  split at hx
  · cases hx with
    | head => exact Or.inl rfl
    | tail _ h =>
        exact Or.inr (List.all_eq_true.mp (natDecimal_all_digits _) x h)
  · exact Or.inr (List.all_eq_true.mp (natDecimal_all_digits _) x hx)

theorem all_notNul_of_all_digits {ds : List Char}
    (h : ds.all Char.isDigit = true) :
    ds.all (fun c => c ≠ nulChar) = true := by
  rw [List.all_eq_true] at h ⊢
  intro x hx
  simp only [decide_eq_true_eq]
  exact isDigit_ne_nul (h x hx)

theorem all_notNul_intDecimal (v : Int) :
    (intDecimal v).all (fun c => c ≠ nulChar) = true := by
  rw [List.all_eq_true]
  intro x hx
  simp only [decide_eq_true_eq]
  rcases mem_intDecimal hx with h | h
  · subst h
    decide
  · exact isDigit_ne_nul h

theorem kstrtoint_intDecimal {v : Int} (h1 : INT_MIN ≤ v) (h2 : v ≤ INT_MAX) :
    kstrtoint (intDecimal v) = some v := by
  have hall := natDecimal_all_digits v.natAbs
  have hval : digitsToNat (natDecimal v.natAbs) = v.natAbs :=
    digitsToNat_natDecimal v.natAbs
  by_cases hv : v < 0
  · rw [intDecimal_of_neg hv,
        kstrtoint_eq_of ('-' :: natDecimal v.natAbs) (natDecimal v.natAbs) (-1)
          rfl hall (natDecimal_ne_nil _),
        hval]
    have heq : (-1 : Int) * (v.natAbs : Int) = v := by omega
    rw [heq, if_pos ⟨h1, h2⟩]
  · push_neg at hv
    rw [intDecimal_of_nonneg hv,
        kstrtoint_eq_of (natDecimal v.natAbs) (natDecimal v.natAbs) 1
          (stripSign_of_all_digits hall (natDecimal_ne_nil _)) hall
          (natDecimal_ne_nil _),
        hval]
    have heq : (1 : Int) * (v.natAbs : Int) = v := by omega
    rw [heq, if_pos ⟨h1, h2⟩]

/-! ### Helper lemmas about `parsedTemp` and the show callbacks -/

theorem kstrtoint_range {cs : List Char} {v : Int} (h : kstrtoint cs = some v) :
    INT_MIN ≤ v ∧ v ≤ INT_MAX := by
  simp only [kstrtoint] at h
  split at h
  · exact absurd h (by simp)
  · split at h
    · split at h
      next hrange =>
        injection h with h2
        rw [← h2]
        exact hrange
      · exact absurd h (by simp)
    · exact absurd h (by simp)

theorem parsedTemp_eq_of_some {bytes : List Char} {v : Int}
    (h : kstrtoint (bytes.takeWhile (fun c => c ≠ nulChar)) = some v)
    (hne : bytes ≠ []) :
    parsedTemp bytes = v := by
  unfold parsedTemp
  rw [if_pos (List.length_pos.mpr hne), h]

theorem parsedTemp_eq_of_none {bytes : List Char}
    (h : kstrtoint (bytes.takeWhile (fun c => c ≠ nulChar)) = none) :
    parsedTemp bytes = 0 := by
  unfold parsedTemp
  split
  · rw [h]
  · rfl

theorem parsedTemp_range (bytes : List Char) :
    INT_MIN ≤ parsedTemp bytes ∧ parsedTemp bytes ≤ INT_MAX := by
  unfold parsedTemp
  split
  · split
    next v h => exact kstrtoint_range h
    · constructor <;> decide
  · constructor <;> decide

theorem temp1_input_show_absent (d : Device) (a : DeviceAttribute) :
    temp1_input_show d a FileState.absent = "0\n".toList := rfl

theorem temp1_input_show_unreadable (d : Device) (a : DeviceAttribute) :
    temp1_input_show d a FileState.unreadable = intDecimal 0 ++ ['\n'] := rfl

theorem temp1_input_show_present (d : Device) (a : DeviceAttribute)
    (c : List Char) :
    temp1_input_show d a (FileState.present c)
      = intDecimal (parsedTemp (c.take 15)) ++ ['\n'] := rfl

theorem intDecimal_zero_out : intDecimal 0 ++ ['\n'] = "0\n".toList := by
  simp [intDecimal, natDecimal, digitChar]

theorem parsedTemp_intDecimal {v : Int} (h1 : INT_MIN ≤ v) (h2 : v ≤ INT_MAX) :
    parsedTemp ((intDecimal v).take 15) = v := by
  have hfull : (intDecimal v).take 15 = intDecimal v :=
    take_all_of_length_le (intDecimal v) 15
      (Nat.le_trans (intDecimal_length_le h1 h2) (by norm_num))
  rw [hfull]
  apply parsedTemp_eq_of_some
  · rw [takeWhile_of_all _ _ (all_notNul_intDecimal v)]
    exact kstrtoint_intDecimal h1 h2
  · unfold intDecimal
    split
    · simp
    · exact natDecimal_ne_nil _

/-! ### Helper lemmas for truncated and out-of-range inputs -/

theorem digitsToNat_take_div {ds : List Char} (hall : ds.all Char.isDigit = true)
    (k : Nat) (hk : k ≤ ds.length) :
    digitsToNat (ds.take k) = digitsToNat ds / 10 ^ (ds.length - k) := by
  have hsplit : ds.take k ++ ds.drop k = ds := List.take_append_drop k ds
  have hlen_drop : (ds.drop k).length = ds.length - k := List.length_drop k ds
  have happ : digitsToNat ds
      = digitsToNat (ds.take k) * 10 ^ (ds.length - k) + digitsToNat (ds.drop k) := by
    conv_lhs => rw [← hsplit]
    rw [digitsToNat_append, hlen_drop]
  have hlt : digitsToNat (ds.drop k) < 10 ^ (ds.length - k) := by
    have h := digitsToNat_lt (all_drop Char.isDigit k ds hall)
    rw [hlen_drop] at h
    exact h
  rw [happ]
  have hcomm : digitsToNat (ds.take k) * 10 ^ (ds.length - k) + digitsToNat (ds.drop k)
      = digitsToNat (ds.drop k) + 10 ^ (ds.length - k) * digitsToNat (ds.take k) := by
    ring
  rw [hcomm, Nat.add_mul_div_left _ _ (Nat.pos_pow_of_pos _ (by norm_num)),
      Nat.div_eq_of_lt hlt, Nat.zero_add]

theorem digitsToNat_take_natDecimal_lower {n k : Nat} (hn : 1 ≤ n) (hk1 : 1 ≤ k)
    (hk : k ≤ (natDecimal n).length) :
    10 ^ (k - 1) ≤ digitsToNat ((natDecimal n).take k) := by
  have hlow := natDecimal_lower n hn
  rw [digitsToNat_take_div (natDecimal_all_digits n) k hk, digitsToNat_natDecimal]
  have hdiv : 10 ^ ((natDecimal n).length - 1) / 10 ^ ((natDecimal n).length - k)
      ≤ n / 10 ^ ((natDecimal n).length - k) :=
    Nat.div_le_div_right hlow
  have hpow : 10 ^ ((natDecimal n).length - 1) / 10 ^ ((natDecimal n).length - k)
      = 10 ^ (k - 1) := by
    rw [Nat.pow_div (by omega) (by norm_num)]
    congr 1
    omega
  rw [hpow] at hdiv
  exact hdiv

theorem kstrtoint_trunc_pos_overflow {n : Nat} (hn : 2 ^ 31 ≤ n) :
    kstrtoint (((natDecimal n).take 15).takeWhile (fun c => c ≠ nulChar)) = none := by
  have hall := natDecimal_all_digits n
  have hne := natDecimal_ne_nil n
  by_cases hL : (natDecimal n).length ≤ 15
  · rw [take_all_of_length_le (natDecimal n) 15 hL,
        takeWhile_of_all _ _ (all_notNul_of_all_digits hall),
        kstrtoint_eq_of (natDecimal n) (natDecimal n) 1
          (stripSign_of_all_digits hall hne) hall hne,
        digitsToNat_natDecimal]
    have h31n : (2 : Nat) ^ 31 = 2147483648 := by norm_num
    have h31i : (2 : Int) ^ 31 = 2147483648 := by norm_num
    rw [if_neg]
    unfold INT_MIN INT_MAX
    omega
  · push_neg at hL
    have hall_p := all_take Char.isDigit 15 (natDecimal n) hall
    have htake_len : ((natDecimal n).take 15).length = 15 := by
      rw [List.length_take]
      exact Nat.min_eq_left (by omega)
    have hpne : (natDecimal n).take 15 ≠ [] := by
      intro h0
      rw [h0] at htake_len
      simp at htake_len
    rw [takeWhile_of_all _ _ (all_notNul_of_all_digits hall_p),
        kstrtoint_eq_of ((natDecimal n).take 15) ((natDecimal n).take 15) 1
          (stripSign_of_all_digits hall_p hpne) hall_p hpne]
    have hlow : 10 ^ 14 ≤ digitsToNat ((natDecimal n).take 15) := by
      have h := digitsToNat_take_natDecimal_lower (n := n) (k := 15)
        (by omega) (by norm_num) (by omega)
      norm_num at h
      exact h
    have h14 : (10 : Nat) ^ 14 = 100000000000000 := by norm_num
    have h31i : (2 : Int) ^ 31 = 2147483648 := by norm_num
    rw [if_neg]
    unfold INT_MIN INT_MAX
    omega

theorem kstrtoint_trunc_neg_overflow {n : Nat} (hn : 2 ^ 31 + 1 ≤ n) :
    kstrtoint ((('-' :: natDecimal n).take 15).takeWhile (fun c => c ≠ nulChar))
      = none := by
  have hall := natDecimal_all_digits n
  have hne := natDecimal_ne_nil n
  have htake15 : ('-' :: natDecimal n).take 15 = '-' :: (natDecimal n).take 14 := rfl
  rw [htake15]
  have hall_q := all_take Char.isDigit 14 (natDecimal n) hall
  have htw : ('-' :: (natDecimal n).take 14).takeWhile (fun c => c ≠ nulChar)
      = '-' :: (natDecimal n).take 14 := by
    rw [List.takeWhile_cons, if_pos (by decide),
        takeWhile_of_all _ _ (all_notNul_of_all_digits hall_q)]
  rw [htw]
  by_cases hL : (natDecimal n).length ≤ 14
  · rw [take_all_of_length_le (natDecimal n) 14 hL,
        kstrtoint_eq_of ('-' :: natDecimal n) (natDecimal n) (-1) rfl hall hne,
        digitsToNat_natDecimal]
    have h31n : (2 : Nat) ^ 31 = 2147483648 := by norm_num
    have h31i : (2 : Int) ^ 31 = 2147483648 := by norm_num
    rw [if_neg]
    unfold INT_MIN INT_MAX
    omega
  · push_neg at hL
    have htake_len : ((natDecimal n).take 14).length = 14 := by
      rw [List.length_take]
      exact Nat.min_eq_left (by omega)
    have hqne : (natDecimal n).take 14 ≠ [] := by
      intro h0
      rw [h0] at htake_len
      simp at htake_len
    rw [kstrtoint_eq_of ('-' :: (natDecimal n).take 14) ((natDecimal n).take 14)
          (-1) rfl hall_q hqne]
    have hlow : 10 ^ 13 ≤ digitsToNat ((natDecimal n).take 14) := by
      have h := digitsToNat_take_natDecimal_lower (n := n) (k := 14)
        (by omega) (by norm_num) (by omega)
      norm_num at h
      exact h
    have h13 : (10 : Nat) ^ 13 = 10000000000000 := by norm_num
    have h31i : (2 : Int) ^ 31 = 2147483648 := by norm_num
    rw [if_neg]
    unfold INT_MIN INT_MAX
    omega

theorem parsedTemp_out_of_range {v : Int} (hout : v < INT_MIN ∨ INT_MAX < v) :
    parsedTemp ((intDecimal v).take 15) = 0 := by
  have h31i : (2 : Int) ^ 31 = 2147483648 := by norm_num
  have h31n : (2 : Nat) ^ 31 = 2147483648 := by norm_num
  rcases hout with hlt | hgt
  · have hneg : v < 0 := by
      unfold INT_MIN at hlt
      omega
    rw [intDecimal_of_neg hneg]
    exact parsedTemp_eq_of_none (kstrtoint_trunc_neg_overflow (by
      unfold INT_MIN at hlt
      omega))
  · have hnonneg : 0 ≤ v := by
      unfold INT_MAX at hgt
      omega
    rw [intDecimal_of_nonneg hnonneg]
    exact parsedTemp_eq_of_none (kstrtoint_trunc_pos_overflow (by
      unfold INT_MAX at hgt
      omega))

/-! ### Concrete decimal renderings used by the scenario instances -/

theorem natDecimal_90000 : natDecimal 90000 = "90000".toList := by
  simp [natDecimal, digitChar]

theorem natDecimal_95000 : natDecimal 95000 = "95000".toList := by
  simp [natDecimal, digitChar]

theorem intDecimal_42000 : intDecimal 42000 = "42000".toList := by
  simp [intDecimal, natDecimal, digitChar]

theorem intDecimal_2147483648 : intDecimal 2147483648 = "2147483648".toList := by
  simp [intDecimal, natDecimal, digitChar]

theorem intDecimal_42_out : intDecimal 42 ++ ['\n'] = "42\n".toList := by
  simp [intDecimal, natDecimal, digitChar]

theorem intDecimal_neg5_out : intDecimal (-5) ++ ['\n'] = "-5\n".toList := by
  simp [intDecimal, natDecimal, digitChar]

/-! ### The claims -/

/-- C1, counterexample: the well-formed decimal integer 2147483648 stored as
the source content makes the current-reading query return "0\n", not
"2147483648\n" — `kstrtoint` rejects values above `INT_MAX`. -/
theorem temp1_input_overflow_counterexample :
    temp1_input_show ⟨0⟩ ⟨0⟩ (FileState.present "2147483648".toList)
        = "0\n".toList
      ∧ "0\n".toList ≠ "2147483648\n".toList := by
  constructor
  · rw [temp1_input_show_present]
    have hp : parsedTemp ("2147483648".toList.take 15) = 0 := by decide
    rw [hp, intDecimal_zero_out]
  · decide

/-- C1, amended: for every decimal integer N representable in a 32-bit
signed `int`, storing the decimal text of N as the source content makes
the current-reading query return that text followed by a newline. -/
theorem temp1_input_in_range_roundtrip (d : Device) (a : DeviceAttribute)
    (v : Int) (h1 : INT_MIN ≤ v) (h2 : v ≤ INT_MAX) :
    temp1_input_show d a (FileState.present (intDecimal v))
      = intDecimal v ++ ['\n'] := by
  rw [temp1_input_show_present, parsedTemp_intDecimal h1 h2]

/-- C1, witness: the spec scenario — source content "42000" yields
"42000\n". -/
theorem temp1_input_in_range_roundtrip_witness :
    temp1_input_show ⟨0⟩ ⟨0⟩ (FileState.present "42000".toList)
      = "42000\n".toList := by
  have h := temp1_input_in_range_roundtrip ⟨0⟩ ⟨0⟩ 42000 (by decide) (by decide)
  rw [intDecimal_42000] at h
  rw [h]
  decide

/-- C2: every data-path failure — source missing (`filp_open` fails), source
unreadable (`kernel_read` fails), or content that does not parse as a
base-10 `int` — makes the current-reading query return exactly "0\n"; the
model's return channel carries only the buffer, as the C function returns
the `sprintf` byte count and never an error code. -/
theorem temp1_input_failures_return_zero (d : Device) (a : DeviceAttribute) :
    temp1_input_show d a FileState.absent = "0\n".toList
      ∧ temp1_input_show d a FileState.unreadable = "0\n".toList
      ∧ ∀ content : List Char,
          kstrtoint ((content.take 15).takeWhile (fun c => c ≠ nulChar)) = none →
            temp1_input_show d a (FileState.present content) = "0\n".toList := by
  refine ⟨rfl, ?_, ?_⟩
  · rw [temp1_input_show_unreadable, intDecimal_zero_out]
  · intro content h
    rw [temp1_input_show_present, parsedTemp_eq_of_none h, intDecimal_zero_out]

/-- C2, witness: the spec scenario — content "not-a-number" yields "0\n". -/
theorem temp1_input_failures_return_zero_witness :
    kstrtoint (("not-a-number".toList.take 15).takeWhile (fun c => c ≠ nulChar))
        = none
      ∧ temp1_input_show ⟨0⟩ ⟨0⟩ (FileState.present "not-a-number".toList)
        = "0\n".toList := by
  have h : kstrtoint (("not-a-number".toList.take 15).takeWhile
      (fun c => c ≠ nulChar)) = none := by decide
  exact ⟨h, (temp1_input_failures_return_zero ⟨0⟩ ⟨0⟩).2.2 "not-a-number".toList h⟩

/-- C3: the maximum-threshold query returns the constant 90000 as decimal
text with a trailing newline on every invocation; it is a pure function of
no state (its `dev`/`attr` arguments are ignored) and has no failure
channel. -/
theorem temp1_max_constant (d : Device) (a : DeviceAttribute) :
    temp1_max_show d a = natDecimal 90000 ++ ['\n']
      ∧ temp1_max_show d a = "90000\n".toList := by
  constructor
  · rw [natDecimal_90000]
    exact (by decide : "90000\n".toList = "90000".toList ++ ['\n'])
  · rfl

/-- C4: the critical-threshold query returns the constant 95000 as decimal
text with a trailing newline on every invocation; it is a pure function of
no state (its `dev`/`attr` arguments are ignored) and has no failure
channel. -/
theorem temp1_crit_constant (d : Device) (a : DeviceAttribute) :
    temp1_crit_show d a = natDecimal 95000 ++ ['\n']
      ∧ temp1_crit_show d a = "95000\n".toList := by
  constructor
  · rw [natDecimal_95000]
    exact (by decide : "95000\n".toList = "95000".toList ++ ['\n'])
  · rfl

/-- C5, counterexample: with source content "-5" the current-reading query
returns "-5\n", which is not the decimal text of any non-negative integer
followed by a newline — the value produced can be negative. -/
theorem temp1_input_negative_counterexample :
    temp1_input_show ⟨0⟩ ⟨0⟩ (FileState.present "-5".toList) = "-5\n".toList
      ∧ (∀ n : Nat, "-5\n".toList ≠ natDecimal n ++ ['\n']) := by
  constructor
  · rw [temp1_input_show_present]
    have hp : parsedTemp ("-5".toList.take 15) = -5 := by decide
    rw [hp, intDecimal_neg5_out]
  · intro n h
    obtain ⟨c, t, hct⟩ : ∃ c t, natDecimal n = c :: t := by
      cases hnd : natDecimal n with
      | nil => exact absurd hnd (natDecimal_ne_nil n)
      | cons c t => exact ⟨c, t, rfl⟩
    rw [hct] at h
    have hcd : c.isDigit = true := by
      have hall := natDecimal_all_digits n
      rw [hct, List.all_cons, Bool.and_eq_true] at hall
      exact hall.1
    have h2 : ('-' :: '5' :: '\n' :: ([] : List Char)) = c :: (t ++ ['\n']) := h
    injection h2 with h3 h4
    rw [← h3] at hcd
    exact absurd hcd (by decide)

/-- C5, amended: for every state of the external source, the current-reading
query produces the decimal text of an integer in the 32-bit signed `int`
range — in milli-degree units, not necessarily non-negative — followed by a
newline. -/
theorem temp1_input_output_shape (d : Device) (a : DeviceAttribute)
    (fs : FileState) :
    ∃ v : Int, INT_MIN ≤ v ∧ v ≤ INT_MAX
      ∧ temp1_input_show d a fs = intDecimal v ++ ['\n'] := by
  cases fs with
  | absent => exact ⟨0, by decide, by decide, intDecimal_zero_out.symm⟩
  | unreadable => exact ⟨0, by decide, by decide, rfl⟩
  | present c =>
      exact ⟨parsedTemp (c.take 15), (parsedTemp_range _).1,
        (parsedTemp_range _).2, rfl⟩

/-- C6: every invocation of the current-reading query opens the external
source read-only at its hardcoded path, performs no creating, writing or
deleting operation, leaves the file state unchanged, and on every path on
which the open succeeded its last file operation before returning is the
close. -/
theorem temp1_input_file_effects (fs : FileState) :
    (temp1_input_run fs).1.head?
        = some (FsOp.openFile TEMP_FILE AccessMode.rdonly)
      ∧ (temp1_input_run fs).1.all (fun op => !(isMutatingOp op)) = true
      ∧ (temp1_input_run fs).1.foldl applyFsOp fs = fs
      ∧ (fs ≠ FileState.absent →
          (temp1_input_run fs).1.getLast? = some FsOp.closeFile) := by
  cases fs with
  | absent => exact ⟨rfl, rfl, rfl, fun h => absurd rfl h⟩
  | unreadable => exact ⟨rfl, rfl, rfl, fun h => rfl⟩
  | present c => exact ⟨rfl, rfl, rfl, fun h => rfl⟩

/-- C6, witness: with the source present and readable ("42"), the query's
trace ends with the close operation. -/
theorem temp1_input_file_effects_witness :
    FileState.present ('4' :: '2' :: []) ≠ FileState.absent
      ∧ (temp1_input_run (FileState.present ('4' :: '2' :: []))).1.getLast?
        = some FsOp.closeFile := by
  have hne : FileState.present ('4' :: '2' :: []) ≠ FileState.absent := by decide
  exact ⟨hne, (temp1_input_file_effects (FileState.present ('4' :: '2' :: []))).2.2.2 hne⟩

/-- C7: when either registration step of `gpu_temp_init` fails, the
underlying non-zero error code is returned to the caller and the provider
is left with nothing registered; in particular when device registration
fails after driver registration succeeded, the driver registration is
undone before the error is returned (`PTR_ERR` of an error pointer lies in
-4095..-1, hence is non-zero). -/
theorem gpu_temp_init_error_propagation (env : InitEnv) :
    (env.driverReg ≠ 0 →
        gpu_temp_init env cleanState = (env.driverReg, cleanState))
      ∧ (∀ e : Int, env.driverReg = 0 → env.deviceReg = Except.error e →
          -4095 ≤ e → e ≤ -1 →
            gpu_temp_init env cleanState = (e, cleanState) ∧ e ≠ 0) := by
  constructor
  · intro h
    simp only [gpu_temp_init]
    rw [if_pos h]
  · intro e h0 herr hlo hhi
    refine ⟨?_, by omega⟩
    simp [gpu_temp_init, h0, herr, cleanState]

/-- C7, witness: driver registration failing with -12 (ENOMEM) propagates
-12; device registration failing with -19 (ENODEV) after a successful
driver registration propagates -19, with the clean state restored. -/
theorem gpu_temp_init_error_propagation_witness :
    gpu_temp_init ⟨-12, Except.ok ()⟩ cleanState = (-12, cleanState)
      ∧ (gpu_temp_init ⟨0, Except.error (-19)⟩ cleanState = (-19, cleanState)
          ∧ (-19 : Int) ≠ 0) :=
  ⟨(gpu_temp_init_error_propagation ⟨-12, Except.ok ()⟩).1 (by decide),
   (gpu_temp_init_error_propagation ⟨0, Except.error (-19)⟩).2 (-19) rfl rfl
     (by decide) (by decide)⟩

/-- Helper: case analysis of a single lifecycle step. -/
theorem moduleStep_cases {s t : ProviderState} (h : ModuleStep s t) :
    (s = cleanState ∧ t = cleanState) ∨ (s = cleanState ∧ t = fullState)
      ∨ (s = fullState ∧ t = cleanState) := by
  cases h with
  | load env =>
      by_cases hd : env.driverReg ≠ 0
      · left
        exact ⟨rfl, by simp [gpu_temp_init, if_pos hd]⟩
      · push_neg at hd
        cases herr : env.deviceReg with
        | error e =>
            left
            refine ⟨rfl, ?_⟩
            simp [gpu_temp_init, hd, herr, cleanState]
        | ok u =>
            right
            left
            refine ⟨rfl, ?_⟩
            simp [gpu_temp_init, hd, herr, cleanState, fullState]
  | unload =>
      right
      right
      exact ⟨rfl, rfl⟩

/-- C8: under the lifecycle step relation — `gpu_temp_init` once at load,
`gpu_temp_exit` once at unload — every reachable state holds at most one
registration handle and is either the unregistered or the fully registered
state, and the only transitions are unregistered-to-registered (successful
attach), unregistered-to-unregistered (failed attach, load aborted) and
registered-to-unregistered (detach); there is no step out of the registered
state other than detach, so no reinitialization path exists. -/
theorem lifecycle_registration_invariant :
    (∀ s : ProviderState, ReachableState s →
        handleCount s ≤ 1 ∧ (s = cleanState ∨ s = fullState))
      ∧ (∀ s t : ProviderState, ModuleStep s t →
          (s = cleanState ∧ t = cleanState) ∨ (s = cleanState ∧ t = fullState)
            ∨ (s = fullState ∧ t = cleanState)) := by
  constructor
  · intro s hs
    induction hs with
    | init => exact ⟨by decide, Or.inl rfl⟩
    | step hprev hstep ih =>
        rcases moduleStep_cases hstep with ⟨_, ht⟩ | ⟨_, ht⟩ | ⟨_, ht⟩ <;>
          subst ht
        · exact ⟨by decide, Or.inl rfl⟩
        · exact ⟨by decide, Or.inr rfl⟩
        · exact ⟨by decide, Or.inl rfl⟩
  · intro s t h
    exact moduleStep_cases h

/-- C8, witness: the fully registered state is reachable by a successful
load and holds one handle; the unload step detaches back to the
unregistered state. -/
theorem lifecycle_registration_invariant_witness :
    (handleCount fullState ≤ 1 ∧ (fullState = cleanState ∨ fullState = fullState))
      ∧ ((fullState = cleanState ∧ cleanState = cleanState)
          ∨ (fullState = cleanState ∧ cleanState = fullState)
          ∨ (fullState = fullState ∧ cleanState = cleanState)) :=
  ⟨lifecycle_registration_invariant.1 fullState
      (ReachableState.step ReachableState.init
        (ModuleStep.load ⟨0, Except.ok ()⟩)),
   lifecycle_registration_invariant.2 fullState cleanState ModuleStep.unload⟩

/-- C9, counterexample: the source content "42\n" — whose first 15 bytes are
not the complete decimal representation of any integer, the trailing
newline being no part of one — makes the query return "42\n", not "0\n":
`kstrtoint` tolerates one trailing newline after the digits. -/
theorem temp1_input_newline_counterexample :
    temp1_input_show ⟨0⟩ ⟨0⟩ (FileState.present "42\n".toList) = "42\n".toList
      ∧ "42\n".toList ≠ "0\n".toList
      ∧ (∀ v : Int, "42\n".toList ≠ intDecimal v) := by
  refine ⟨?_, by decide, ?_⟩
  · rw [temp1_input_show_present]
    have hp : parsedTemp ("42\n".toList.take 15) = 42 := by decide
    rw [hp, intDecimal_42_out]
  · intro v h
    have hmem : '\n' ∈ intDecimal v := by
      rw [← h]
      decide
    rcases mem_intDecimal hmem with h1 | h1
    · exact absurd h1 (by decide)
    · exact absurd h1 (by decide)

/-- C9, amended: the current-reading query considers at most the first 15
bytes of the source (its parse buffer holds 16 bytes including the
terminator): outputs agree whenever the first 15 bytes agree; whenever
those bytes (up to an embedded NUL) are not an optional sign, one or more
decimal digits and an optional single trailing newline with value
representable in a 32-bit signed `int`, the query returns 0 — in
particular for well-formed integers longer than 15 characters or outside
the `int` range. -/
theorem temp1_input_parse_window (d : Device) (a : DeviceAttribute) :
    (∀ c1 c2 : List Char, c1.take 15 = c2.take 15 →
        temp1_input_show d a (FileState.present c1)
          = temp1_input_show d a (FileState.present c2))
      ∧ (∀ c : List Char,
          kstrtoint ((c.take 15).takeWhile (fun x => x ≠ nulChar)) = none →
            temp1_input_show d a (FileState.present c) = "0\n".toList)
      ∧ (∀ v : Int, v < INT_MIN ∨ INT_MAX < v →
          temp1_input_show d a (FileState.present (intDecimal v))
            = "0\n".toList) := by
  refine ⟨?_, ?_, ?_⟩
  · intro c1 c2 h
    rw [temp1_input_show_present, temp1_input_show_present, h]
  · intro c h
    rw [temp1_input_show_present, parsedTemp_eq_of_none h, intDecimal_zero_out]
  · intro v hv
    rw [temp1_input_show_present, parsedTemp_out_of_range hv, intDecimal_zero_out]

/-- C9, witness: 2147483648 exceeds `INT_MAX`, and with its decimal text as
the source content the query returns "0\n". -/
theorem temp1_input_parse_window_witness :
    INT_MAX < (2147483648 : Int)
      ∧ temp1_input_show ⟨0⟩ ⟨0⟩ (FileState.present "2147483648".toList)
        = "0\n".toList := by
  have h := (temp1_input_parse_window ⟨0⟩ ⟨0⟩).2.2 2147483648 (Or.inr (by decide))
  rw [intDecimal_2147483648] at h
  exact ⟨by decide, h⟩

/-- C10: the current-reading query is a pure function of the external file
state alone — two invocations against the same file state produce
byte-identical output, whatever the `dev` and `attr` arguments are, and no
other state exists for a prior query to have changed. -/
theorem temp1_input_deterministic (d1 d2 : Device) (a1 a2 : DeviceAttribute)
    (fs : FileState) :
    temp1_input_show d1 a1 fs = temp1_input_show d2 a2 fs := rfl

end GpuTempHwmon
